import Mathlib

/-!
# Verification of the vending-machine day-simulation core

Shallow embedding of the repository `vending_machine_sim` (Python).
The embedded modules are:

* `src/models/inventory.py` — per-item stock, pending restock quantity,
  restock ETA, cost/sell prices, and the operations `place_order`,
  `apply_restocks`, `deduct_stock`, `add_stock`, `set_price`,
  `adjust_prices`;
* `src/models/sales.py` — the append-only sales ledger (`record_sale`,
  `sales_for_date`);
* `src/models/financials.py` — the per-day financial ledger
  (`update_daily`);
* `src/simulation.py` — `_sales_volume_bounds`, `_pick_item`,
  `simulate_day`.

Modelling conventions:

* Python `int` is `ℤ`; Python `float` currency/multiplier values are
  modelled as `ℚ` with exact arithmetic; Python built-in `round`
  (round-half-to-even) is `pyRound`, and `round(x, 4)` is `round4`.
* ISO dates (`YYYY-MM-DD` strings parsed with `datetime.fromisoformat`)
  are modelled by their proleptic-Gregorian ordinals, i.e. plain `ℤ`;
  date comparison, `date + timedelta(days = n)` and
  `date.fromordinal(date.toordinal() + n)` become integer comparison
  and addition.  `date.weekday()` (Monday = 0) of the date with ordinal
  `d` is `(d - 1) % 7` because ordinal 1 (0001-01-01) is a Monday.
* Python dicts holding the ledgers are association lists
  (`List (key × value)`); insertion of a fresh key appends, update of an
  existing key replaces in place, reproducing dict semantics for the
  unique-key states the program produces.
* `random.randint(a, b)` and `random.choice` are injected randomness: a
  `Rng` supplies the drawn base volume and, per loop iteration, an index
  used to pick uniformly from the candidate list.
* Python exceptions (`KeyError` on a missing config field, `ValueError`
  from the inventory operations) become `Except Err`; since the Python
  code raises before any `write_json`, an exception leaves the persisted
  state unchanged, which the store-level wrappers make explicit.
-/

/-- Python built-in `round` on an exact rational: round half to even.
The floor is computed as `Int.fdiv num den` (floor division; exact since
a rational's denominator is positive) so that the definition evaluates
by kernel reduction. -/
def pyRound (q : ℚ) : ℤ :=
  let f : ℤ := Int.fdiv q.num (q.den : ℤ)
  let r : ℚ := q - (f : ℚ)
  if r < 1/2 then f
  else if 1/2 < r then f + 1
  else if f % 2 = 0 then f else f + 1

/-- Python `round(x, 4)`: round to four decimal places, half to even. -/
def round4 (q : ℚ) : ℚ := ((pyRound (q * 10000) : ℤ) : ℚ) / 10000

/-- Errors raised by the embedded code: `ValueError(f"Unknown item: ...")`,
`ValueError(f"Minimum order quantity is ...")`, and the `KeyError` that a
missing required configuration field raises (the spec's `ConfigError`). -/
inductive Err where
  | unknownItem
  | belowMinimumOrder
  | configError
deriving DecidableEq, Repr

/-- One inventory entry, as stored in `inventory.json`:
`{stock, restock_pending, restock_eta, cost_price, sell_price}`. -/
structure Item where
  stock : ℤ
  restock_pending : ℤ
  restock_eta : Option ℤ
  cost_price : ℚ
  sell_price : ℚ
deriving DecidableEq, Repr

/-- The inventory dict, keyed by item name. -/
abbrev Inventory := List (String × Item)

/-- Dict lookup `inv[item]` / `item in inv`: first entry with the key. -/
def lookupItem : Inventory → String → Option Item
  | [], _ => none
  | p :: rest, k => if p.1 = k then some p.2 else lookupItem rest k

/-- Dict update `inv[item] = it` for a key already present: replace in
place, keeping position. -/
def setItem (inv : Inventory) (k : String) (it : Item) : Inventory :=
  inv.map (fun p => if p.1 = k then (k, it) else p)

/-- `place_order(item, qty, today_iso, min_qty, lead_time_days)` from
`src/models/inventory.py`.  Validates item existence and the minimum
quantity, then either accumulates onto an existing pending order
(keeping its ETA — the code branches on the truthiness of
`restock_eta`) or starts a fresh one with ETA `today + lead_time_days`.
Returns the updated inventory together with the
`{item, restock_pending, restock_eta}` result dict. -/
def place_order (inv : Inventory) (item : String) (qty : ℤ) (today : ℤ)
    (min_qty : ℤ) (lead_time_days : ℤ) :
    Except Err (Inventory × (String × ℤ × Option ℤ)) :=
  match lookupItem inv item with
  | none => .error .unknownItem
  | some it =>
    if qty < min_qty then .error .belowMinimumOrder
    else
      match it.restock_eta with
      | some e =>
        let it' := { it with restock_pending := it.restock_pending + qty }
        .ok (setItem inv item it', (item, it'.restock_pending, some e))
      | none =>
        let eta := today + lead_time_days
        let it' := { it with restock_pending := qty, restock_eta := some eta }
        .ok (setItem inv item it', (item, qty, some eta))

/-- The per-item body of the `apply_restocks` loop: if
`restock_pending > 0` and an ETA is set and it is `<= upto`, move the
pending quantity into stock and clear the pair, reporting the applied
quantity. -/
def restockItem (upto : ℤ) (it : Item) : Item × Option ℤ :=
  match it.restock_eta with
  | some e =>
    if 0 < it.restock_pending ∧ e ≤ upto then
      ({ it with stock := it.stock + it.restock_pending,
                 restock_pending := 0, restock_eta := none },
       some it.restock_pending)
    else (it, none)
  | none => (it, none)

/-- `apply_restocks(upto_date_iso)` from `src/models/inventory.py`:
apply every due pending order; returns the new inventory and the list of
applied `(item, qty)` entries. -/
def apply_restocks (inv : Inventory) (upto : ℤ) :
    Inventory × List (String × ℤ) :=
  (inv.map (fun p => (p.1, (restockItem upto p.2).1)),
   inv.filterMap (fun p => ((restockItem upto p.2).2).map (fun q => (p.1, q))))

/-- `deduct_stock(item, qty)` from `src/models/inventory.py`: `False`
for an unknown item; decrement and `True` when `stock >= qty`; otherwise
`False` with the inventory untouched. -/
def deduct_stock (inv : Inventory) (item : String) (qty : ℤ) :
    Inventory × Bool :=
  match lookupItem inv item with
  | none => (inv, false)
  | some it =>
    if qty ≤ it.stock then
      (setItem inv item { it with stock := it.stock - qty }, true)
    else (inv, false)

/-- `add_stock(item, qty)` from `src/models/inventory.py`. -/
def add_stock (inv : Inventory) (item : String) (qty : ℤ) :
    Except Err Inventory :=
  match lookupItem inv item with
  | none => .error .unknownItem
  | some it => .ok (setItem inv item { it with stock := it.stock + qty })

/-- `set_price(item, price)` from `src/models/inventory.py`: raises for
an unknown item. -/
def set_price (inv : Inventory) (item : String) (price : ℚ) :
    Except Err Inventory :=
  match lookupItem inv item with
  | none => .error .unknownItem
  | some it => .ok (setItem inv item { it with sell_price := price })

/-- `adjust_prices(prices)` from `src/models/inventory.py`: bulk update
that silently skips unknown keys. -/
def adjust_prices (inv : Inventory) (prices : List (String × ℚ)) : Inventory :=
  prices.foldl
    (fun acc p =>
      match lookupItem acc p.1 with
      | none => acc
      | some it => setItem acc p.1 { it with sell_price := p.2 })
    inv

/-- The on-disk effect of a `place_order` call: the Python code raises
its `ValueError`s before the single `save_inventory` write, so on error
the persisted inventory is exactly the old one. -/
def place_order_store (inv : Inventory) (item : String) (qty : ℤ)
    (today : ℤ) (min_qty : ℤ) (lead_time_days : ℤ) :
    Inventory × Except Err (String × ℤ × Option ℤ) :=
  match place_order inv item qty today min_qty lead_time_days with
  | .ok (inv', r) => (inv', .ok r)
  | .error e => (inv, .error e)

/-- The on-disk effect of a `set_price` call: the `ValueError` is raised
before `save_inventory`, so on error the persisted inventory is
unchanged. -/
def set_price_store (inv : Inventory) (item : String) (price : ℚ) :
    Inventory × Except Err Unit :=
  match set_price inv item price with
  | .ok inv' => (inv', .ok ())
  | .error e => (inv, .error e)

/-- One sales-ledger record, as appended by `record_sale` in
`src/models/sales.py`: `{date, item, qty, revenue, cogs}` with revenue
and cogs rounded to 4 decimals at record time. -/
structure SaleRecord where
  date : ℤ
  item : String
  qty : ℤ
  revenue : ℚ
  cogs : ℚ
deriving DecidableEq, Repr

/-- `record_sale(date_iso, item, qty, revenue, cogs)` from
`src/models/sales.py`: append to the ledger, rounding the currency
snapshots to 4 decimal places. -/
def record_sale (s : List SaleRecord) (date : ℤ) (item : String) (qty : ℤ)
    (revenue : ℚ) (cogs : ℚ) : List SaleRecord :=
  s ++ [⟨date, item, qty, round4 revenue, round4 cogs⟩]

/-- `sales_for_date(date_iso)` from `src/models/sales.py`. -/
def sales_for_date (s : List SaleRecord) (date : ℤ) : List SaleRecord :=
  s.filter (fun r => r.date == date)

/-- One entry of `financials.json`, keyed by date. -/
structure FinEntry where
  revenue : ℚ
  cogs : ℚ
  expenses : ℚ
  profit : ℚ
deriving DecidableEq, Repr

/-- The financial ledger dict, keyed by date. -/
abbrev FinLedger := List (ℤ × FinEntry)

/-- Dict lookup `f.get(date_iso)`. -/
def lookupFin : FinLedger → ℤ → Option FinEntry
  | [], _ => none
  | p :: rest, d => if p.1 = d then some p.2 else lookupFin rest d

/-- Dict assignment `f[date_iso] = entry`: replace in place when the key
exists, append otherwise. -/
def setFin (f : FinLedger) (d : ℤ) (e : FinEntry) : FinLedger :=
  if (lookupFin f d).isSome then
    f.map (fun p => if p.1 = d then (d, e) else p)
  else f ++ [(d, e)]

/-- `update_daily(date_iso, sales_records, expenses_cfg)` from
`src/models/financials.py`: sum revenue and cogs over the records, sum
the expense config values, `profit = revenue - (cogs + expenses)`,
round each to 4 decimals and overwrite the entry for the date.  Returns
the new ledger and the written entry. -/
def update_daily (f : FinLedger) (d : ℤ) (records : List SaleRecord)
    (expenses_cfg : List (String × ℚ)) : FinLedger × FinEntry :=
  let revenue := (records.map (fun r => r.revenue)).sum
  let cogs := (records.map (fun r => r.cogs)).sum
  let expenses := (expenses_cfg.map (fun p => p.2)).sum
  let profit := revenue - (cogs + expenses)
  let e : FinEntry :=
    ⟨round4 revenue, round4 cogs, round4 expenses, round4 profit⟩
  (setFin f d e, e)

/-- The `sales_simulation` section of `config.json`.  Every field is
optional because the claims quantify over configurations with fields
missing; a `none` models an absent key, on which the Python subscript
raises `KeyError`, except `max_affordable_price`, which the code reads
with `.get(..., float("inf"))`. -/
structure SalesSimConfig where
  min_sales_per_day : Option ℤ
  max_sales_per_day : Option ℤ
  dow_multipliers : Option (List (ℕ × ℚ))
  max_affordable_price : Option ℚ
deriving DecidableEq, Repr

/-- The configuration the Day Simulator reads: the `sales_simulation`
section, the flat `operating_expenses` map, and the simulation clock. -/
structure Config where
  sales_simulation : SalesSimConfig
  operating_expenses : List (String × ℚ)
  current_date : ℤ
  last_simulated_date : Option ℤ
deriving DecidableEq, Repr

/-- The persisted state a day-transition touches: config, inventory
ledger, sales ledger, financial ledger. -/
structure State where
  config : Config
  inventory : Inventory
  sales : List SaleRecord
  financials : FinLedger
deriving DecidableEq, Repr

/-- Injected randomness: `base` is the value `random.randint(minv, maxv)`
draws, and `choice i` is the index (reduced mod the candidate count)
`random.choice` uses at loop iteration `i`. -/
structure Rng where
  base : ℤ
  choice : ℕ → ℕ

/-- `dow_multipliers.get(str(dow), 1.0)`: table lookup with default 1. -/
def dowMult (tbl : List (ℕ × ℚ)) (dow : ℕ) : ℚ :=
  (((tbl.find? (fun p => p.1 == dow)).map Prod.snd)).getD 1

/-- `_sales_volume_bounds(cfg, dow)` from `src/simulation.py`, with the
`random.randint(minv, maxv)` draw injected as `base`:
`max(int(round(base * mult)), 0)` where `mult` is the day-of-week
multiplier, defaulting to 1.0.  The subscripts on `min_sales_per_day`,
`max_sales_per_day` and `dow_multipliers` raise `KeyError`
(`Err.configError`) when the key is missing, in that order. -/
def sales_volume_bounds (cfg : Config) (dow : ℕ) (base : ℤ) : Except Err ℤ :=
  match cfg.sales_simulation.min_sales_per_day with
  | none => .error .configError
  | some _minv =>
    match cfg.sales_simulation.max_sales_per_day with
    | none => .error .configError
    | some _maxv =>
      match cfg.sales_simulation.dow_multipliers with
      | none => .error .configError
      | some tbl => .ok (max (pyRound ((base : ℚ) * dowMult tbl dow)) 0)

/-- `float(v.get("sell_price", 0.0)) <= price_limit` where the limit is
`float("inf")` when `max_affordable_price` is absent. -/
def withinLimit (price : ℚ) (limit : Option ℚ) : Prop :=
  match limit with
  | none => True
  | some l => price ≤ l

instance (price : ℚ) (limit : Option ℚ) : Decidable (withinLimit price limit) := by
  unfold withinLimit
  cases limit with
  | none => exact inferInstanceAs (Decidable True)
  | some l => exact inferInstanceAs (Decidable (price ≤ l))

/-- `_pick_item(inv, price_limit)` from `src/simulation.py`: the
candidates are the in-stock items priced within the limit (in dict
order); `random.choice` is modelled by indexing with the injected
`c mod length`. -/
def pick_item (inv : Inventory) (limit : Option ℚ) (c : ℕ) : Option String :=
  let candidates :=
    (inv.filter (fun p => 0 < p.2.stock ∧ withinLimit p.2.sell_price limit)).map
      Prod.fst
  if candidates.isEmpty then none
  else some (candidates.getD (c % candidates.length) "")

/-- The selling loop of `simulate_day`: up to `n` iterations, each picks
an eligible item (hard-exiting the loop when none exists), deducts one
unit and, on success, records a sale at the item's current prices.  `i`
counts iterations for the injected choice stream. -/
def sellLoop (rng : Rng) (d : ℤ) (limit : Option ℚ) :
    ℕ → ℕ → Inventory → List SaleRecord → Inventory × List SaleRecord
  | 0, _, inv, sales => (inv, sales)
  | n + 1, i, inv, sales =>
    match pick_item inv limit (rng.choice i) with
    | none => (inv, sales)
    | some item =>
      match deduct_stock inv item 1 with
      | (inv', true) =>
        match lookupItem inv' item with
        | some it =>
          sellLoop rng d limit n (i + 1) inv'
            (record_sale sales d item 1 it.sell_price it.cost_price)
        | none => sellLoop rng d limit n (i + 1) inv' sales
      | (inv', false) => sellLoop rng d limit n (i + 1) inv' sales

/-- The summary dict `simulate_day` returns. -/
structure Summary where
  date : ℤ
  sales_count : ℤ
  revenue : ℚ
  cogs : ℚ
  expenses : ℚ
  profit : ℚ
  restocks_applied : List (String × ℤ)
deriving DecidableEq, Repr

/-- The part of `simulate_day()` that runs once the target sale count
`target` has been drawn: apply due restocks, run the selling loop,
recompute the day's financial entry from the sales dated today, advance
the clock and build the summary dict.  (In the source the restocks are
applied before the draw; the split is sound because the draw reads only
the config.) -/
def simulate_day_core (st : State) (rng : Rng) (target : ℤ) :
    State × Summary :=
  let cfg := st.config
  let d := cfg.current_date
  let ar := apply_restocks st.inventory d
  let limit := cfg.sales_simulation.max_affordable_price
  let sl := sellLoop rng d limit target.toNat 0 ar.1 st.sales
  let records := sales_for_date sl.2 d
  let ud := update_daily st.financials d records cfg.operating_expenses
  let cfg' := { cfg with current_date := d + 1, last_simulated_date := some d }
  ({ config := cfg', inventory := sl.1, sales := sl.2, financials := ud.1 },
   ⟨d, (records.map (fun r => r.qty)).sum, ud.2.revenue, ud.2.cogs,
    ud.2.expenses, ud.2.profit, ar.2⟩)

/-- `simulate_day()` from `src/simulation.py`: read the clock, apply due
restocks, draw the target sale count, run the selling loop, recompute
the day's financial entry from the sales dated today, then advance the
clock.  A missing required config field propagates as `Err.configError`
(the Python `KeyError`), aborting the day-transition with the error. -/
def simulate_day (st : State) (rng : Rng) : Except Err (State × Summary) :=
  match sales_volume_bounds st.config
      (((st.config.current_date - 1) % 7).toNat) rng.base with
  | .error e => .error e
  | .ok target => .ok (simulate_day_core st rng target)

/-- The spec's formula for the target sale count (spec §4.2 step 3):
`round(uniformRandom(minPerDay, maxPerDay) * dowMultiplier[dow])`
floored at 0, the multiplier defaulting to 1.0 when the weekday index is
absent from the table; `base` stands for the uniform draw. -/
def specTargetCount (tbl : List (ℕ × ℚ)) (dow : ℕ) (base : ℤ) : ℤ :=
  max (pyRound ((base : ℚ) * dowMult tbl dow)) 0

/-- The spec's per-item invariant: `restock_pending > 0 ⇔ restock_eta is
set`. -/
def itemOK (it : Item) : Prop := 0 < it.restock_pending ↔ it.restock_eta.isSome

instance (it : Item) : Decidable (itemOK it) := by
  unfold itemOK; infer_instance

/-- The invariant holds of every item in the inventory. -/
def invOK (inv : Inventory) : Prop := ∀ p ∈ inv, itemOK p.2

instance (inv : Inventory) : Decidable (invOK inv) := by
  unfold invOK; infer_instance

/-- All stocks are non-negative. -/
def invNonneg (inv : Inventory) : Prop := ∀ p ∈ inv, 0 ≤ p.2.stock

instance (inv : Inventory) : Decidable (invNonneg inv) := by
  unfold invNonneg; infer_instance

theorem lookupItem_setItem_self (inv : Inventory) (k : String) (it it' : Item)
    (h : lookupItem inv k = some it) :
    lookupItem (setItem inv k it') k = some it' := by
  induction inv with
  | nil => simp [lookupItem] at h
  | cons p rest ih =>
    by_cases hk : p.1 = k
    · simp [lookupItem, setItem, hk]
    · simp only [lookupItem, setItem, List.map_cons, if_neg hk] at h ⊢
      simpa [lookupItem, if_neg hk] using ih h

theorem lookupItem_setItem_ne (inv : Inventory) (k j : String) (it' : Item)
    (h : j ≠ k) : lookupItem (setItem inv k it') j = lookupItem inv j := by
  have hkj : ¬ (k = j) := fun hc => h hc.symm
  induction inv with
  | nil => rfl
  | cons p rest ih =>
    by_cases hk : p.1 = k
    · have hpj : ¬ (p.1 = j) := by rw [hk]; exact hkj
      simp only [setItem, List.map_cons, if_pos hk, lookupItem]
      rw [if_neg (show ¬ ((k, it').1 = j) from hkj), if_neg hpj]
      exact ih
    · by_cases hj : p.1 = j
      · simp only [setItem, List.map_cons, if_neg hk, lookupItem, if_pos hj]
      · simp only [setItem, List.map_cons, if_neg hk, lookupItem, if_neg hj]
        exact ih

theorem lookupItem_apply_restocks (inv : Inventory) (d : ℤ) (k : String) :
    lookupItem (apply_restocks inv d).1 k =
      (lookupItem inv k).map (fun it => (restockItem d it).1) := by
  induction inv with
  | nil => simp [apply_restocks, lookupItem]
  | cons p rest ih =>
    by_cases hk : p.1 = k
    · simp [apply_restocks, lookupItem, hk]
    · simp only [apply_restocks, List.map_cons, lookupItem, if_neg hk]
      simpa [apply_restocks] using ih

theorem invOK_setItem (inv : Inventory) (k : String) (it' : Item)
    (hinv : invOK inv) (hit : itemOK it') : invOK (setItem inv k it') := by
  intro p hp
  simp only [setItem, List.mem_map] at hp
  obtain ⟨q, hq, hqe⟩ := hp
  by_cases h : q.1 = k
  · simp [if_pos h] at hqe
    simpa [← hqe] using hit
  · simp [if_neg h] at hqe
    subst hqe
    exact hinv q hq

theorem invNonneg_setItem (inv : Inventory) (k : String) (it' : Item)
    (hinv : invNonneg inv) (hit : 0 ≤ it'.stock) :
    invNonneg (setItem inv k it') := by
  intro p hp
  simp only [setItem, List.mem_map] at hp
  obtain ⟨q, hq, hqe⟩ := hp
  by_cases h : q.1 = k
  · simp [if_pos h] at hqe
    simpa [← hqe] using hit
  · simp [if_neg h] at hqe
    subst hqe
    exact hinv q hq

theorem lookupItem_mem (inv : Inventory) (k : String) (it : Item)
    (h : lookupItem inv k = some it) : ∃ p ∈ inv, p.2 = it := by
  induction inv with
  | nil => simp [lookupItem] at h
  | cons p rest ih =>
    by_cases hk : p.1 = k
    · simp [lookupItem, hk] at h
      exact ⟨p, by simp, h⟩
    · simp [lookupItem, hk] at h
      obtain ⟨q, hq, hqe⟩ := ih h
      exact ⟨q, by simp [hq], hqe⟩

/-- **C1.** For every configuration with integer bounds `minPerDay` and
`maxPerDay` present, every day-of-week index, and every value `base`
drawn by the random source (so `minPerDay ≤ base ≤ maxPerDay`), the Day
Simulator's target sale count equals
`round(uniformRandom(minPerDay, maxPerDay) * dowMultiplier[dow])`
floored at 0, with multiplier 1.0 for a weekday index absent from the
table (`specTargetCount` is that spec formula). -/
theorem C1_target_sale_count (cfg : Config) (dow : ℕ) (base m M : ℤ)
    (tbl : List (ℕ × ℚ))
    (hm : cfg.sales_simulation.min_sales_per_day = some m)
    (hM : cfg.sales_simulation.max_sales_per_day = some M)
    (ht : cfg.sales_simulation.dow_multipliers = some tbl)
    (_hlo : m ≤ base) (_hhi : base ≤ M) :
    sales_volume_bounds cfg dow base = .ok (specTargetCount tbl dow base) := by
  unfold sales_volume_bounds
  rw [hm, hM, ht]
  rfl

/-- Witness for C1 at a concrete configuration (Friday multiplier 1.1,
draw 7 within bounds 5..20). -/
theorem C1_target_sale_count_witness :
    sales_volume_bounds
      { sales_simulation :=
          { min_sales_per_day := some 5, max_sales_per_day := some 20,
            dow_multipliers := some [(4, 11/10)],
            max_affordable_price := some 2 },
        operating_expenses := [("electricity", 1)],
        current_date := 739000, last_simulated_date := none }
      4 7 = .ok (specTargetCount [(4, 11/10)] 4 7) :=
  C1_target_sale_count _ 4 7 5 20 _ rfl rfl rfl (by decide) (by decide)

/-- **C7.** `deduct_stock` succeeds exactly when the item exists with
`stock ≥ qty`, in which case it decrements that item's stock by `qty`;
when `qty` exceeds the stock it returns `false` and leaves the
inventory unchanged; and it preserves non-negativity of every stock. -/
theorem C7_deduct_stock_safe (inv : Inventory) (item : String) (qty : ℤ)
    (it : Item) :
    (lookupItem inv item = some it → qty ≤ it.stock →
      deduct_stock inv item qty =
        (setItem inv item { it with stock := it.stock - qty }, true)) ∧
    (lookupItem inv item = some it → it.stock < qty →
      deduct_stock inv item qty = (inv, false)) ∧
    ((deduct_stock inv item qty).2 = true →
      ∃ jt, lookupItem inv item = some jt ∧ qty ≤ jt.stock) ∧
    (invNonneg inv → invNonneg (deduct_stock inv item qty).1) := by
  refine ⟨?_, ?_, ?_, ?_⟩
  · intro h hq
    simp only [deduct_stock, h, if_pos hq]
  · intro h hq
    simp only [deduct_stock, h, if_neg (not_le.mpr hq)]
  · intro h
    cases hl : lookupItem inv item with
    | none =>
      simp only [deduct_stock, hl] at h
      exact (Bool.false_ne_true h).elim
    | some jt =>
      by_cases hq : qty ≤ jt.stock
      · exact ⟨jt, rfl, hq⟩
      · simp only [deduct_stock, hl, if_neg hq] at h
        exact (Bool.false_ne_true h).elim
  · intro hnn
    cases hl : lookupItem inv item with
    | none => simpa only [deduct_stock, hl] using hnn
    | some jt =>
      by_cases hq : qty ≤ jt.stock
      · simp only [deduct_stock, hl, if_pos hq]
        refine invNonneg_setItem inv item _ hnn ?_
        simpa using sub_nonneg.mpr hq
      · simpa only [deduct_stock, hl, if_neg hq] using hnn

/-- Witness for C7 at a concrete one-item inventory with stock 5,
deducting 2. -/
theorem C7_deduct_stock_safe_witness :
    deduct_stock
      [("Coke", { stock := 5, restock_pending := 0, restock_eta := none,
                  cost_price := 1/2, sell_price := 3/2 })] "Coke" 2 =
      (setItem
        [("Coke", { stock := 5, restock_pending := 0, restock_eta := none,
                    cost_price := 1/2, sell_price := 3/2 })] "Coke"
        { stock := 3, restock_pending := 0, restock_eta := none,
          cost_price := 1/2, sell_price := 3/2 }, true) :=
  (C7_deduct_stock_safe _ "Coke" 2
    { stock := 5, restock_pending := 0, restock_eta := none,
      cost_price := 1/2, sell_price := 3/2 }).1 rfl (by decide)

/-- **C9.** `place_order` on an absent item fails with `UnknownItem`,
and with `qty < minQty` fails with `BelowMinimumOrder`; in both cases
the persisted inventory is exactly the one before the call (validation
happens before any mutation). -/
theorem C9_place_order_validation (inv : Inventory) (item : String)
    (qty today minQty lead : ℤ) (it : Item) :
    (lookupItem inv item = none →
      place_order_store inv item qty today minQty lead =
        (inv, .error .unknownItem)) ∧
    (lookupItem inv item = some it → qty < minQty →
      place_order_store inv item qty today minQty lead =
        (inv, .error .belowMinimumOrder)) := by
  constructor
  · intro h
    simp only [place_order_store, place_order, h]
  · intro h hq
    simp only [place_order_store, place_order, h, if_pos hq]

/-- Witness for C9: ordering 3 units with minimum 10 on a concrete
inventory fails below-minimum and leaves the inventory unchanged. -/
theorem C9_place_order_validation_witness :
    place_order_store
      [("Coke", { stock := 5, restock_pending := 0, restock_eta := none,
                  cost_price := 1/2, sell_price := 3/2 })]
      "Coke" 3 739000 10 2 =
      ([("Coke", { stock := 5, restock_pending := 0, restock_eta := none,
                   cost_price := 1/2, sell_price := 3/2 })],
       .error .belowMinimumOrder) :=
  (C9_place_order_validation _ "Coke" 3 739000 10 2
    { stock := 5, restock_pending := 0, restock_eta := none,
      cost_price := 1/2, sell_price := 3/2 }).2 rfl (by decide)

/-- **C10.** `deduct_stock` on an item absent from the inventory returns
`False` without raising, leaving the inventory unchanged — while
`place_order` and `set_price` raise `UnknownItem` on the same absent
item. -/
theorem C10_deduct_unknown_is_false (inv : Inventory) (item : String)
    (qty : ℤ) (price : ℚ) (today minQty lead : ℤ)
    (h : lookupItem inv item = none) :
    deduct_stock inv item qty = (inv, false) ∧
    place_order inv item qty today minQty lead = .error .unknownItem ∧
    set_price inv item price = .error .unknownItem := by
  unfold deduct_stock place_order set_price
  rw [h]
  exact ⟨rfl, rfl, rfl⟩

/-- Witness for C10 on a concrete inventory without the item "Tea". -/
theorem C10_deduct_unknown_is_false_witness :
    deduct_stock
      [("Coke", { stock := 5, restock_pending := 0, restock_eta := none,
                  cost_price := 1/2, sell_price := 3/2 })] "Tea" 1 =
      ([("Coke", { stock := 5, restock_pending := 0, restock_eta := none,
                   cost_price := 1/2, sell_price := 3/2 })], false) ∧
    place_order
      [("Coke", { stock := 5, restock_pending := 0, restock_eta := none,
                  cost_price := 1/2, sell_price := 3/2 })]
      "Tea" 10 739000 10 2 = .error .unknownItem ∧
    set_price
      [("Coke", { stock := 5, restock_pending := 0, restock_eta := none,
                  cost_price := 1/2, sell_price := 3/2 })] "Tea" 2 =
      .error .unknownItem :=
  C10_deduct_unknown_is_false _ "Tea" 1 2 739000 10 2 (by decide)

/-- **C5.** On an item that already has a pending order (its
`restock_eta` is set — the truthiness the code branches on), a second
successful `place_order` adds `qty` to `restock_pending` and keeps the
existing ETA: the updated item differs from the old one only in
`restock_pending`, so the first call's ETA is retained. -/
theorem C5_second_order_keeps_eta (inv : Inventory) (item : String)
    (qty today minQty lead e : ℤ) (it : Item)
    (hit : lookupItem inv item = some it)
    (heta : it.restock_eta = some e)
    (hq : minQty ≤ qty) :
    place_order inv item qty today minQty lead =
      .ok (setItem inv item
             { it with restock_pending := it.restock_pending + qty },
           (item, it.restock_pending + qty, some e)) := by
  simp only [place_order, hit, if_neg (not_lt.mpr hq), heta]

/-- Witness for C5: a second 10-unit order on an item with 10 pending
and ETA day 739002 accumulates to 20 pending and keeps that ETA. -/
theorem C5_second_order_keeps_eta_witness :
    place_order
      [("Coke", { stock := 5, restock_pending := 10,
                  restock_eta := some 739002,
                  cost_price := 1/2, sell_price := 3/2 })]
      "Coke" 10 739001 10 2 =
      .ok (setItem
             [("Coke", { stock := 5, restock_pending := 10,
                         restock_eta := some 739002,
                         cost_price := 1/2, sell_price := 3/2 })] "Coke"
             { stock := 5, restock_pending := 20,
               restock_eta := some 739002,
               cost_price := 1/2, sell_price := 3/2 },
           ("Coke", 20, some 739002)) :=
  C5_second_order_keeps_eta _ "Coke" 10 739001 10 2 739002
    { stock := 5, restock_pending := 10, restock_eta := some 739002,
      cost_price := 1/2, sell_price := 3/2 } rfl rfl (by decide)

theorem lookupFin_map_self (f : FinLedger) (d : ℤ) (e : FinEntry)
    (h : (lookupFin f d).isSome) :
    lookupFin (f.map (fun p => if p.1 = d then (d, e) else p)) d = some e := by
  induction f with
  | nil => simp [lookupFin] at h
  | cons p rest ih =>
    by_cases hp : p.1 = d
    · simp [lookupFin, hp]
    · simp only [lookupFin, if_neg hp, List.map_cons] at h ⊢
      exact ih h

theorem lookupFin_append_self (f : FinLedger) (d : ℤ) (e : FinEntry)
    (h : lookupFin f d = none) :
    lookupFin (f ++ [(d, e)]) d = some e := by
  induction f with
  | nil => simp [lookupFin]
  | cons p rest ih =>
    by_cases hp : p.1 = d
    · simp [lookupFin, hp] at h
    · simp only [lookupFin, if_neg hp, List.cons_append] at h ⊢
      exact ih h

theorem lookupFin_setFin_self (f : FinLedger) (d : ℤ) (e : FinEntry) :
    lookupFin (setFin f d e) d = some e := by
  unfold setFin
  by_cases hs : (lookupFin f d).isSome
  · rw [if_pos hs]
    exact lookupFin_map_self f d e hs
  · rw [if_neg hs]
    exact lookupFin_append_self f d e (Option.not_isSome_iff_eq_none.mp hs)

theorem map_replace_of_absent (f : FinLedger) (d : ℤ) (e : FinEntry)
    (h : lookupFin f d = none) :
    f.map (fun p => if p.1 = d then (d, e) else p) = f := by
  induction f with
  | nil => rfl
  | cons p rest ih =>
    by_cases hp : p.1 = d
    · simp [lookupFin, hp] at h
    · simp only [lookupFin, if_neg hp, List.map_cons] at h ⊢
      rw [ih h]

theorem setFin_of_isSome (f : FinLedger) (d : ℤ) (e : FinEntry)
    (h : (lookupFin f d).isSome) :
    setFin f d e = f.map (fun p => if p.1 = d then (d, e) else p) := by
  unfold setFin
  rw [if_pos h]

theorem setFin_idem (f : FinLedger) (d : ℤ) (e : FinEntry) :
    setFin (setFin f d e) d e = setFin f d e := by
  have hfun : ∀ p : ℤ × FinEntry,
      (if (if p.1 = d then ((d, e) : ℤ × FinEntry) else p).1 = d then
        ((d, e) : ℤ × FinEntry)
       else if p.1 = d then (d, e) else p) = if p.1 = d then (d, e) else p := by
    intro p
    by_cases hp : p.1 = d
    · simp [hp]
    · simp [hp]
  rw [setFin_of_isSome _ d e (by rw [lookupFin_setFin_self]; rfl)]
  by_cases hs : (lookupFin f d).isSome
  · rw [setFin_of_isSome f d e hs, List.map_map]
    exact List.map_congr_left (fun p _ => hfun p)
  · have hn : lookupFin f d = none := Option.not_isSome_iff_eq_none.mp hs
    have happ : setFin f d e = f ++ [(d, e)] := by
      unfold setFin
      rw [if_neg hs]
    rw [happ, List.map_append, map_replace_of_absent f d e hn]
    simp

/-- **C6.** `update_daily` is idempotent — calling it a second time with
identical inputs leaves both the ledger and the returned entry
identical, overwriting the entry for the date — and every written entry
satisfies `profit = revenue - cogs - expenses` exactly on the
full-precision sums, rounded to 4 decimal places at persistence (the
stored `revenue`, `cogs` and `expenses` are the same sums rounded the
same way). -/
theorem C6_update_daily_idempotent_profit (f : FinLedger) (d : ℤ)
    (records : List SaleRecord) (cfg : List (String × ℚ)) :
    update_daily (update_daily f d records cfg).1 d records cfg =
      update_daily f d records cfg ∧
    lookupFin (update_daily f d records cfg).1 d =
      some (update_daily f d records cfg).2 ∧
    (update_daily f d records cfg).2.revenue =
      round4 ((records.map (fun r => r.revenue)).sum) ∧
    (update_daily f d records cfg).2.cogs =
      round4 ((records.map (fun r => r.cogs)).sum) ∧
    (update_daily f d records cfg).2.expenses =
      round4 ((cfg.map (fun p => p.2)).sum) ∧
    (update_daily f d records cfg).2.profit =
      round4 ((records.map (fun r => r.revenue)).sum -
        (records.map (fun r => r.cogs)).sum -
        (cfg.map (fun p => p.2)).sum) := by
  refine ⟨?_, ?_, rfl, rfl, rfl, ?_⟩
  · simp only [update_daily]
    rw [setFin_idem]
  · simp only [update_daily]
    rw [lookupFin_setFin_self]
  · show round4 ((records.map (fun r => r.revenue)).sum -
      ((records.map (fun r => r.cogs)).sum + (cfg.map (fun p => p.2)).sum)) = _
    rw [sub_sub]

/-- **C3, counterexample.** The claim quantifies over every
`qty ≥ minQty`.  With `minQty = 0` and `qty = 0` (a successful call,
since `0 ≥ 0`), `place_order` on an item with no pending order sets
`restock_pending = 0` but an ETA, and `apply_restocks` at the ETA skips
it (`pending > 0` fails), so `restock_eta` is left SET, not unset as
the claim states. -/
theorem C3_counterexample :
    place_order [("Coke", ⟨3, 0, none, 1/2, 3/2⟩)] "Coke" 0 739000 0 2 =
      .ok ([("Coke", ⟨3, 0, some 739002, 1/2, 3/2⟩)],
           ("Coke", 0, some 739002)) ∧
    (apply_restocks [("Coke", ⟨3, 0, some 739002, 1/2, 3/2⟩)] 739002).1 =
      [("Coke", ⟨3, 0, some 739002, 1/2, 3/2⟩)] := by
  exact ⟨rfl, rfl⟩

/-- **C3, amended.** For every inventory item with no pending order
(`restock_eta` unset) and every qty with `qty ≥ minQty` **and
`qty ≥ 1`**, `place_order` followed by `apply_restocks(d)` for any
`d ≥` the order's ETA (`today + leadTimeDays`) increases that item's
stock by exactly `qty` and leaves `restock_pending = 0` and
`restock_eta` unset. -/
theorem C3_order_then_restock (inv : Inventory) (item : String)
    (qty today minQty lead d : ℤ) (it : Item)
    (hit : lookupItem inv item = some it)
    (heta : it.restock_eta = none)
    (hmin : minQty ≤ qty) (hpos : 1 ≤ qty)
    (hd : today + lead ≤ d) :
    ∃ inv' r, place_order inv item qty today minQty lead = .ok (inv', r) ∧
      lookupItem (apply_restocks inv' d).1 item =
        some { it with stock := it.stock + qty, restock_pending := 0,
                       restock_eta := none } := by
  have hpo : place_order inv item qty today minQty lead =
      .ok (setItem inv item
             { it with restock_pending := qty,
                       restock_eta := some (today + lead) },
           (item, qty, some (today + lead))) := by
    simp only [place_order, hit, if_neg (not_lt.mpr hmin), heta]
  refine ⟨_, _, hpo, ?_⟩
  rw [lookupItem_apply_restocks,
      lookupItem_setItem_self inv item it _ hit]
  have hq0 : (0 : ℤ) < qty := by omega
  simp only [Option.map_some', restockItem, if_pos (And.intro hq0 hd)]

/-- Witness for the amended C3: a 10-unit order with minimum 10, lead
time 2, restocked two days later. -/
theorem C3_order_then_restock_witness :
    ∃ inv' r,
      place_order [("Coke", ⟨5, 0, none, 1/2, 3/2⟩)] "Coke" 10 739000 10 2 =
        .ok (inv', r) ∧
      lookupItem (apply_restocks inv' 739002).1 "Coke" =
        some ⟨15, 0, none, 1/2, 3/2⟩ :=
  C3_order_then_restock [("Coke", ⟨5, 0, none, 1/2, 3/2⟩)] "Coke"
    10 739000 10 2 739002 ⟨5, 0, none, 1/2, 3/2⟩ rfl rfl (by decide)
    (by decide) (by decide)

theorem itemOK_restockItem (d : ℤ) (it : Item) (h : itemOK it) :
    itemOK (restockItem d it).1 := by
  cases heta : it.restock_eta with
  | none => simpa only [restockItem, heta] using h
  | some e =>
    by_cases hc : 0 < it.restock_pending ∧ e ≤ d
    · simp only [restockItem, heta, if_pos hc]
      simp [itemOK]
    · simpa only [restockItem, heta, if_neg hc] using h

theorem itemOK_stock_update (it : Item) (s : ℤ) (h : itemOK it) :
    itemOK { it with stock := s } := h

theorem itemOK_price_update (it : Item) (p : ℚ) (h : itemOK it) :
    itemOK { it with sell_price := p } := h

theorem lookupItem_itemOK (inv : Inventory) (k : String) (it : Item)
    (hinv : invOK inv) (h : lookupItem inv k = some it) : itemOK it := by
  obtain ⟨p, hp, hpe⟩ := lookupItem_mem inv k it h
  rw [← hpe]
  exact hinv p hp

theorem invOK_adjust_prices (inv : Inventory) (prices : List (String × ℚ))
    (hinv : invOK inv) : invOK (adjust_prices inv prices) := by
  induction prices generalizing inv with
  | nil => exact hinv
  | cons p rest ih =>
    show invOK (adjust_prices _ rest)
    apply ih
    cases hl : lookupItem inv p.1 with
    | none => simpa [hl] using hinv
    | some it =>
      simp only [hl]
      exact invOK_setItem inv p.1 _ hinv
        (itemOK_price_update it p.2 (lookupItem_itemOK inv p.1 it hinv hl))

/-- **C4, counterexample.** The claim quantifies over every successful
operation.  A successful `place_order` with `qty = 0` (legal when
`minQty = 0`) on an item with no pending order produces
`restock_pending = 0` with `restock_eta` SET, violating the invariant
`restock_pending > 0 ⇔ restock_eta is set` even though the starting
inventory satisfied it. -/
theorem C4_counterexample :
    invOK [("Coke", ⟨3, 0, none, 1/2, 3/2⟩)] ∧
    place_order [("Coke", ⟨3, 0, none, 1/2, 3/2⟩)] "Coke" 0 739000 0 2 =
      .ok ([("Coke", ⟨3, 0, some 739002, 1/2, 3/2⟩)],
           ("Coke", 0, some 739002)) ∧
    ¬ invOK [("Coke", ⟨3, 0, some 739002, 1/2, 3/2⟩)] := by
  refine ⟨by decide, rfl, by decide⟩

/-- **C4, amended.** Starting from any inventory satisfying the
invariant `restock_pending > 0 ⇔ restock_eta is set` for every item,
every successful inventory operation preserves it, **provided every
`place_order` call uses `qty ≥ 1`** (the code does not preserve it for
zero or negative order quantities). -/
theorem C4_invariant_preserved (inv : Inventory) (hinv : invOK inv) :
    (∀ item qty today minQty lead inv' r, 1 ≤ qty →
      place_order inv item qty today minQty lead = .ok (inv', r) →
      invOK inv') ∧
    (∀ d, invOK (apply_restocks inv d).1) ∧
    (∀ item qty, invOK (deduct_stock inv item qty).1) ∧
    (∀ item qty inv', add_stock inv item qty = .ok inv' → invOK inv') ∧
    (∀ item price inv', set_price inv item price = .ok inv' → invOK inv') ∧
    (∀ prices, invOK (adjust_prices inv prices)) := by
  refine ⟨?_, ?_, ?_, ?_, ?_, ?_⟩
  · intro item qty today minQty lead inv' r hq hpo
    cases hl : lookupItem inv item with
    | none => simp [place_order, hl] at hpo
    | some it =>
      by_cases hlt : qty < minQty
      · simp [place_order, hl, if_pos hlt] at hpo
      · have hitOK : itemOK it := lookupItem_itemOK inv item it hinv hl
        cases heta : it.restock_eta with
        | some e =>
          have hpend : 0 < it.restock_pending := by
            have := hitOK.mpr (by rw [heta]; rfl)
            exact this
          simp only [place_order, hl, if_neg hlt, heta, Except.ok.injEq,
            Prod.mk.injEq] at hpo
          obtain ⟨h1, -⟩ := hpo
          rw [← h1]
          refine invOK_setItem inv item _ hinv ?_
          simp only [itemOK, Option.isSome_some]
          constructor
          · intro _
            trivial
          · intro _
            omega
        | none =>
          simp only [place_order, hl, if_neg hlt, heta, Except.ok.injEq,
            Prod.mk.injEq] at hpo
          obtain ⟨h1, -⟩ := hpo
          rw [← h1]
          refine invOK_setItem inv item _ hinv ?_
          simp only [itemOK, Option.isSome_some]
          constructor
          · intro _
            trivial
          · intro _
            omega
  · intro d p hp
    simp only [apply_restocks, List.mem_map] at hp
    obtain ⟨q, hq, hqe⟩ := hp
    rw [← hqe]
    exact itemOK_restockItem d q.2 (hinv q hq)
  · intro item qty
    cases hl : lookupItem inv item with
    | none => simpa only [deduct_stock, hl] using hinv
    | some it =>
      by_cases hq : qty ≤ it.stock
      · simp only [deduct_stock, hl, if_pos hq]
        exact invOK_setItem inv item _ hinv
          (itemOK_stock_update it _ (lookupItem_itemOK inv item it hinv hl))
      · simpa only [deduct_stock, hl, if_neg hq] using hinv
  · intro item qty inv' ha
    cases hl : lookupItem inv item with
    | none => simp [add_stock, hl] at ha
    | some it =>
      simp only [add_stock, hl, Except.ok.injEq] at ha
      rw [← ha]
      exact invOK_setItem inv item _ hinv
        (itemOK_stock_update it _ (lookupItem_itemOK inv item it hinv hl))
  · intro item price inv' hs
    cases hl : lookupItem inv item with
    | none => simp [set_price, hl] at hs
    | some it =>
      simp only [set_price, hl, Except.ok.injEq] at hs
      rw [← hs]
      exact invOK_setItem inv item _ hinv
        (itemOK_price_update it _ (lookupItem_itemOK inv item it hinv hl))
  · intro prices
    exact invOK_adjust_prices inv prices hinv

/-- Witness for the amended C4: a concrete inventory satisfying the
invariant, preserved by a concrete `deduct_stock`. -/
theorem C4_invariant_preserved_witness :
    invOK (deduct_stock
      [("Coke", ⟨5, 10, some 739002, 1/2, 3/2⟩),
       ("Chips", ⟨0, 0, none, 3/10, 1⟩)] "Coke" 2).1 :=
  (C4_invariant_preserved
    [("Coke", ⟨5, 10, some 739002, 1/2, 3/2⟩),
     ("Chips", ⟨0, 0, none, 3/10, 1⟩)] (by decide)).2.2.1 "Coke" 2

theorem sales_volume_bounds_configError (cfg : Config) (dow : ℕ) (base : ℤ)
    (h : cfg.sales_simulation.min_sales_per_day = none ∨
         cfg.sales_simulation.max_sales_per_day = none ∨
         cfg.sales_simulation.dow_multipliers = none) :
    sales_volume_bounds cfg dow base = .error .configError := by
  unfold sales_volume_bounds
  rcases h with h | h | h
  · rw [h]
  · cases hmin : cfg.sales_simulation.min_sales_per_day with
    | none => rfl
    | some m => rw [h]
  · cases hmin : cfg.sales_simulation.min_sales_per_day with
    | none => rfl
    | some m =>
      cases hmax : cfg.sales_simulation.max_sales_per_day with
      | none => rfl
      | some M => rw [h]

/-- **C2, counterexample.** The claim lists `max_affordable_price`
among the required fields whose absence makes the Day Simulator fail
fast.  In the code that key is read with
`.get("max_affordable_price", float("inf"))`, so a configuration
missing it (everything else present) simulates a day successfully
instead of raising a configuration error. -/
theorem C2_counterexample :
    ({ sales_simulation :=
         { min_sales_per_day := some 1, max_sales_per_day := some 1,
           dow_multipliers := some [], max_affordable_price := none },
       operating_expenses := [("electricity", 1)],
       current_date := 739000, last_simulated_date := none } :
        Config).sales_simulation.max_affordable_price = none ∧
    ∃ out, simulate_day
      { config :=
          { sales_simulation :=
              { min_sales_per_day := some 1, max_sales_per_day := some 1,
                dow_multipliers := some [], max_affordable_price := none },
            operating_expenses := [("electricity", 1)],
            current_date := 739000, last_simulated_date := none },
        inventory := [("Coke", ⟨5, 0, none, 1/2, 3/2⟩)],
        sales := [], financials := [] }
      ⟨1, fun _ => 0⟩ = .ok out :=
  ⟨rfl, ⟨_, rfl⟩⟩

/-- **C2, amended.** A configuration missing `min_sales_per_day`,
`max_sales_per_day` or `dow_multipliers` makes `simulate_day` fail fast
with a configuration error (`KeyError`); a missing per-weekday
multiplier entry defaults to 1.0, and a missing `max_affordable_price`
is silently defaulted to `float("inf")` (no price limit) rather than
raising. -/
theorem C2_missing_config_fails (st : State) (rng : Rng)
    (h : st.config.sales_simulation.min_sales_per_day = none ∨
         st.config.sales_simulation.max_sales_per_day = none ∨
         st.config.sales_simulation.dow_multipliers = none) :
    simulate_day st rng = .error .configError := by
  unfold simulate_day
  rw [sales_volume_bounds_configError st.config _ rng.base h]

/-- Witness for the amended C2: a concrete state missing
`min_sales_per_day` fails with a configuration error. -/
theorem C2_missing_config_fails_witness :
    simulate_day
      { config :=
          { sales_simulation :=
              { min_sales_per_day := none, max_sales_per_day := some 20,
                dow_multipliers := some [], max_affordable_price := some 2 },
            operating_expenses := [("electricity", 1)],
            current_date := 739000, last_simulated_date := none },
        inventory := [("Coke", ⟨5, 0, none, 1/2, 3/2⟩)],
        sales := [], financials := [] }
      ⟨1, fun _ => 0⟩ = .error .configError :=
  C2_missing_config_fails _ ⟨1, fun _ => 0⟩ (Or.inl rfl)

theorem restockItem_id (d : ℤ) (it : Item)
    (h : ¬(0 < it.restock_pending ∧
           ∃ e, it.restock_eta = some e ∧ e ≤ d)) :
    (restockItem d it).1 = it := by
  cases heta : it.restock_eta with
  | none => simp [restockItem, heta]
  | some e =>
    have hc : ¬(0 < it.restock_pending ∧ e ≤ d) :=
      fun hc => h ⟨hc.1, e, heta, hc.2⟩
    simp [restockItem, heta, if_neg hc]

theorem apply_restocks_fst_id (inv : Inventory) (d : ℤ)
    (h : ∀ p ∈ inv, (restockItem d p.2).1 = p.2) :
    (apply_restocks inv d).1 = inv := by
  induction inv with
  | nil => rfl
  | cons p rest ih =>
    simp only [apply_restocks, List.map_cons]
    rw [h p (List.mem_cons_self p rest), Prod.mk.eta]
    have ih' := ih (fun q hq => h q (List.mem_cons_of_mem p hq))
    simp only [apply_restocks] at ih'
    rw [ih']

theorem pick_item_none (inv : Inventory) (limit : Option ℚ) (c : ℕ)
    (h : ∀ p ∈ inv, ¬(0 < p.2.stock ∧ withinLimit p.2.sell_price limit)) :
    pick_item inv limit c = none := by
  have hfil : inv.filter
      (fun p => decide (0 < p.2.stock ∧ withinLimit p.2.sell_price limit)) =
        [] := by
    rw [List.filter_eq_nil_iff]
    intro a ha
    simpa using h a ha
  simp only [pick_item, hfil]
  rfl

theorem sellLoop_noop (rng : Rng) (d : ℤ) (limit : Option ℚ) (n i : ℕ)
    (inv : Inventory) (sales : List SaleRecord)
    (h : ∀ p ∈ inv, ¬(0 < p.2.stock ∧ withinLimit p.2.sell_price limit)) :
    sellLoop rng d limit n i inv sales = (inv, sales) := by
  cases n with
  | zero => rfl
  | succ m => simp only [sellLoop, pick_item_none inv limit (rng.choice i) h]

/-- **C8, amended.** If every inventory item has `stock = 0` or
`sell_price >` the configured `max_affordable_price`, **and no pending
restock is due on or before the current date, and the Sales Ledger has
no records for the current date**, then simulating one day succeeds
with `sales_count = 0` and leaves the Sales Ledger identical.  (The
extra hypotheses are forced: a due restock can refill an item before
the selling loop, and the summary's `sales_count` re-sums all ledger
records dated today, including pre-existing ones.) -/
theorem C8_no_sales_when_ineligible (st : State) (rng : Rng) (L : ℚ)
    (m M : ℤ) (tbl : List (ℕ × ℚ))
    (hm : st.config.sales_simulation.min_sales_per_day = some m)
    (hM : st.config.sales_simulation.max_sales_per_day = some M)
    (htbl : st.config.sales_simulation.dow_multipliers = some tbl)
    (hL : st.config.sales_simulation.max_affordable_price = some L)
    (hitems : ∀ p ∈ st.inventory, p.2.stock = 0 ∨ L < p.2.sell_price)
    (hdue : ∀ p ∈ st.inventory,
      ¬(0 < p.2.restock_pending ∧
        ∃ e, p.2.restock_eta = some e ∧ e ≤ st.config.current_date))
    (hrec : sales_for_date st.sales st.config.current_date = []) :
    ∃ st' s, simulate_day st rng = .ok (st', s) ∧
      s.sales_count = 0 ∧ st'.sales = st.sales := by
  have hinv1 : (apply_restocks st.inventory st.config.current_date).1 =
      st.inventory :=
    apply_restocks_fst_id _ _ (fun p hp => restockItem_id _ _ (hdue p hp))
  have hcand : ∀ p ∈ st.inventory,
      ¬(0 < p.2.stock ∧ withinLimit p.2.sell_price (some L)) := by
    rintro p hp ⟨h1, h2⟩
    rcases hitems p hp with h0 | hgt
    · omega
    · exact absurd (show p.2.sell_price ≤ L from h2) (not_le.mpr hgt)
  have hcore : ∀ target : ℤ, simulate_day_core st rng target =
      ({ config := { st.config with
           current_date := st.config.current_date + 1,
           last_simulated_date := some st.config.current_date },
         inventory := st.inventory, sales := st.sales,
         financials := (update_daily st.financials st.config.current_date []
           st.config.operating_expenses).1 },
       ⟨st.config.current_date, 0,
        (update_daily st.financials st.config.current_date []
          st.config.operating_expenses).2.revenue,
        (update_daily st.financials st.config.current_date []
          st.config.operating_expenses).2.cogs,
        (update_daily st.financials st.config.current_date []
          st.config.operating_expenses).2.expenses,
        (update_daily st.financials st.config.current_date []
          st.config.operating_expenses).2.profit,
        (apply_restocks st.inventory st.config.current_date).2⟩) := by
    intro target
    simp only [simulate_day_core, hL, hinv1,
      sellLoop_noop rng st.config.current_date (some L) target.toNat 0
        st.inventory st.sales hcand, hrec,
      List.map_nil, List.sum_nil]
  have hsvb : sales_volume_bounds st.config
      (((st.config.current_date - 1) % 7).toNat) rng.base =
      .ok (max (pyRound ((rng.base : ℚ) *
        dowMult tbl (((st.config.current_date - 1) % 7).toNat))) 0) := by
    unfold sales_volume_bounds
    rw [hm, hM, htbl]
  refine ⟨{ config := { st.config with
              current_date := st.config.current_date + 1,
              last_simulated_date := some st.config.current_date },
            inventory := st.inventory, sales := st.sales,
            financials := (update_daily st.financials st.config.current_date []
              st.config.operating_expenses).1 },
          ⟨st.config.current_date, 0,
           (update_daily st.financials st.config.current_date []
             st.config.operating_expenses).2.revenue,
           (update_daily st.financials st.config.current_date []
             st.config.operating_expenses).2.cogs,
           (update_daily st.financials st.config.current_date []
             st.config.operating_expenses).2.expenses,
           (update_daily st.financials st.config.current_date []
             st.config.operating_expenses).2.profit,
           (apply_restocks st.inventory st.config.current_date).2⟩,
          ?_, rfl, rfl⟩
  unfold simulate_day
  rw [hsvb]
  exact congrArg Except.ok (hcore _)

/-- Witness for the amended C8: one item out of stock and one priced
above the 2.0 limit, no pending restocks, empty ledger. -/
theorem C8_no_sales_when_ineligible_witness :
    ∃ st' s, simulate_day
      { config :=
          { sales_simulation :=
              { min_sales_per_day := some 1, max_sales_per_day := some 1,
                dow_multipliers := some [], max_affordable_price := some 2 },
            operating_expenses := [("electricity", 1)],
            current_date := 739000, last_simulated_date := none },
        inventory := [("Coke", ⟨0, 0, none, 1/2, 3/2⟩),
                      ("Chips", ⟨5, 0, none, 3/10, 3⟩)],
        sales := [], financials := [] }
      ⟨1, fun _ => 0⟩ = .ok (st', s) ∧ s.sales_count = 0 ∧
      st'.sales = ([] : List SaleRecord) :=
  C8_no_sales_when_ineligible _ ⟨1, fun _ => 0⟩ 2 1 1 [] rfl rfl rfl rfl
    (by decide) (by decide) rfl

/-- **C8, counterexample.** The claim's hypothesis only constrains
stock and price.  An item with `stock = 0` but a pending restock due
today is refilled by `apply_restocks` before the selling loop, so the
day records a sale: the summary has `sales_count = 1` and the Sales
Ledger grows from empty to one record, refuting the claim as stated. -/
theorem C8_counterexample :
    (∀ p ∈ ([("Coke", (⟨0, 5, some 739000, 1, 2⟩ : Item))] :
        Inventory), p.2.stock = 0 ∨ (2 : ℚ) < p.2.sell_price) ∧
    simulate_day
      { config :=
          { sales_simulation :=
              { min_sales_per_day := some 1, max_sales_per_day := some 1,
                dow_multipliers := some [], max_affordable_price := some 2 },
            operating_expenses := [("electricity", 1)],
            current_date := 739000, last_simulated_date := none },
        inventory := [("Coke", ⟨0, 5, some 739000, 1, 2⟩)],
        sales := [], financials := [] }
      ⟨1, fun _ => 0⟩ =
      .ok ({ config :=
               { sales_simulation :=
                   { min_sales_per_day := some 1, max_sales_per_day := some 1,
                     dow_multipliers := some [],
                     max_affordable_price := some 2 },
                 operating_expenses := [("electricity", 1)],
                 current_date := 739001,
                 last_simulated_date := some 739000 },
             inventory := [("Coke", ⟨4, 0, none, 1, 2⟩)],
             sales := [⟨739000, "Coke", 1, 2, 1⟩],
             financials := [(739000, ⟨2, 1, 1, 0⟩)] },
           ⟨739000, 1, 2, 1, 1, 0, [("Coke", 5)]⟩) := by
  constructor
  · decide
  · norm_num [simulate_day, simulate_day_core, sales_volume_bounds, dowMult,
      apply_restocks, restockItem, sellLoop, pick_item, withinLimit,
      deduct_stock, lookupItem, setItem, record_sale, round4, pyRound,
      sales_for_date, update_daily, setFin, lookupFin, List.filterMap_cons,
      List.filterMap_nil]
